import Mathlib

/-!
Verification development for the labelmuncher service.

The definitions below are a shallow embedding of the TypeScript source:
`StateStore` (src/state.ts), `LabelValidator` (src/labelValidator.ts),
`LabelerSubscriber` (src/state.ts, second unit) and `JetstreamWatcher`
(src/jetstreamWatcher.ts).  SQLite tables keyed by a TEXT PRIMARY KEY are
modelled as association lists with upsert semantics (INSERT OR REPLACE);
`JSON.stringify`/`JSON.parse` on string arrays are modelled by an explicit
encoder/decoder pair (control characters other than the common short escapes
are passed through verbatim, which does not affect the round-trip property);
timestamps (`Date.now()`, `cachedAt`) are `Int` milliseconds; asynchronous
effects are explicit state passing; network collaborators (DID resolver,
signature verifier, service-record HTTP fetch) are parameters of a
`ValidatorEnv`.  Human-readable failure reasons are represented by the
inductive `Reason` rather than the literal message strings.
-/

namespace LabelMuncher

/-- Association-list upsert: models SQLite INSERT OR REPLACE on a
TEXT PRIMARY KEY column (the new row replaces any row with the same key). -/
def upsert {α : Type} : List (String × α) → String → α → List (String × α)
  | [], k, v => [(k, v)]
  | (k', v') :: rest, k, v =>
    if k' = k then (k, v) :: rest else (k', v') :: upsert rest k v

/-- Association-list lookup: models SELECT ... WHERE did = ?. -/
def lookupKey {α : Type} : List (String × α) → String → Option α
  | [], _ => none
  | (k', v') :: rest, k => if k' = k then some v' else lookupKey rest k

theorem lookupKey_upsert_self {α : Type} (l : List (String × α)) (k : String) (v : α) :
    lookupKey (upsert l k v) k = some v := by
  induction l with
  | nil => simp [upsert, lookupKey]
  | cons hd tl ih =>
    obtain ⟨k0, v0⟩ := hd
    by_cases h : k0 = k
    · simp [upsert, lookupKey, h]
    · simp [upsert, lookupKey, h, ih]

theorem lookupKey_upsert_other {α : Type} (l : List (String × α)) (k k' : String) (v : α)
    (h : k' ≠ k) : lookupKey (upsert l k v) k' = lookupKey l k' := by
  have hk : ¬(k = k') := fun e => h e.symm
  induction l with
  | nil => simp [upsert, lookupKey, hk]
  | cons hd tl ih =>
    obtain ⟨k0, v0⟩ := hd
    by_cases h0 : k0 = k
    · subst h0
      simp [upsert, lookupKey, hk]
    · simp [upsert, lookupKey, h0, ih]

/-! ## Model of JSON.stringify / JSON.parse restricted to string arrays

`StateStore.setServiceCache` stores `JSON.stringify(record.labelValues)` in a
TEXT column and `StateStore.getServiceCache` applies `JSON.parse` to it. -/

/-- Escaping of a single character inside a JSON string literal, as produced
by JSON.stringify (short escapes; other characters are emitted verbatim). -/
def escChar (c : Char) : List Char :=
  if c = '"' then ['\\', '"']
  else if c = '\\' then ['\\', '\\']
  else if c = '\n' then ['\\', 'n']
  else if c = '\r' then ['\\', 'r']
  else if c = '\t' then ['\\', 't']
  else [c]

/-- A JSON string literal: opening quote, escaped body, closing quote. -/
def encStr (s : List Char) : List Char :=
  '"' :: (s.flatMap escChar ++ ['"'])

/-- Comma-separated encoded elements of a JSON array. -/
def encElems : List (List Char) → List Char
  | [] => []
  | [s] => encStr s
  | s :: s' :: ss => encStr s ++ ',' :: encElems (s' :: ss)

/-- Model of JSON.stringify on a string array. -/
def jsonStringifyStringArray (l : List String) : String :=
  ⟨'[' :: (encElems (l.map String.data) ++ [']'])⟩

/-- Inverse of the short escapes recognised inside a JSON string literal. -/
def unescapeChar (c : Char) : Option Char :=
  if c = '"' then some '"'
  else if c = '\\' then some '\\'
  else if c = 'n' then some '\n'
  else if c = 'r' then some '\r'
  else if c = 't' then some '\t'
  else none

/-- Parse the body of a JSON string literal up to (and consuming) the closing
quote; returns the decoded characters and the unconsumed remainder. -/
def parseStrBody : List Char → Option (List Char × List Char)
  | [] => none
  | c :: cs =>
    if c = '"' then some ([], cs)
    else if c = '\\' then
      match cs with
      | [] => none
      | d :: ds =>
        (unescapeChar d).bind fun u =>
          (parseStrBody ds).map fun sr => (u :: sr.1, sr.2)
    else
      (parseStrBody cs).map fun sr => (c :: sr.1, sr.2)

theorem parseStrBody_nil : parseStrBody [] = none := rfl

theorem parseStrBody_cons (c : Char) (cs : List Char) :
    parseStrBody (c :: cs) =
      if c = '"' then some ([], cs)
      else if c = '\\' then
        match cs with
        | [] => none
        | d :: ds =>
          (unescapeChar d).bind fun u =>
            (parseStrBody ds).map fun sr => (u :: sr.1, sr.2)
      else (parseStrBody cs).map fun sr => (c :: sr.1, sr.2) := by
  rw [parseStrBody.eq_def]

theorem parseStrBody_length_aux : ∀ (n : Nat) (cs s r : List Char), cs.length ≤ n →
    parseStrBody cs = some (s, r) → r.length < cs.length := by
  intro n
  induction n with
  | zero =>
    intro cs s r hle h
    match cs with
    | [] => simp [parseStrBody_nil] at h
    | c :: cs => simp at hle
  | succ n ih =>
    intro cs s r hle h
    match cs with
    | [] => simp [parseStrBody_nil] at h
    | c :: cs =>
      by_cases hq : c = '"'
      · rw [parseStrBody_cons, if_pos hq] at h
        obtain ⟨h1, h2⟩ := Prod.mk.injEq .. ▸ Option.some.injEq .. ▸ h
        simp [← h2]
      · by_cases hb : c = '\\'
        · rw [parseStrBody_cons, if_neg hq, if_pos hb] at h
          match cs, hle with
          | [], _ => simp at h
          | d :: ds, hle =>
            rw [Option.bind_eq_some] at h
            obtain ⟨u, hu, h⟩ := h
            rw [Option.map_eq_some'] at h
            obtain ⟨⟨s', r'⟩, hp, he⟩ := h
            have hds : ds.length ≤ n := by simp at hle; omega
            have hlen := ih ds s' r' hds hp
            obtain ⟨h1, h2⟩ := Prod.mk.injEq .. ▸ he
            simp [← h2]
            omega
        · rw [parseStrBody_cons, if_neg hq, if_neg hb] at h
          rw [Option.map_eq_some'] at h
          obtain ⟨⟨s', r'⟩, hp, he⟩ := h
          have hcs : cs.length ≤ n := by simp at hle; omega
          have hlen := ih cs s' r' hcs hp
          obtain ⟨h1, h2⟩ := Prod.mk.injEq .. ▸ he
          simp [← h2]
          omega

theorem parseStrBody_length (cs s r : List Char) (h : parseStrBody cs = some (s, r)) :
    r.length < cs.length :=
  parseStrBody_length_aux cs.length cs s r (Nat.le_refl _) h

/-- Parse the comma-separated string elements of a JSON array, expecting a
closing bracket at the end; input starts at the quote of the first element.  The
fuel argument only bounds recursion depth (one unit per array element); the
caller passes the input length, which always suffices. -/
def parseElemsAux : Nat → List Char → Option (List (List Char) × List Char)
  | 0, _ => none
  | _ + 1, [] => none
  | fuel + 1, c :: cs =>
    if c = '"' then
      match parseStrBody cs with
      | none => none
      | some (s, r) =>
        match r with
        | [] => none
        | d :: ds =>
          if d = ',' then
            match parseElemsAux fuel ds with
            | none => none
            | some (ss, r2) => some (s :: ss, r2)
          else if d = ']' then some ([s], ds)
          else none
    else none

/-- Model of JSON.parse on the output format of `jsonStringifyStringArray`. -/
def jsonParseStringArray (str : String) : Option (List String) :=
  match str.data with
  | [] => none
  | c :: rest =>
    if c = '[' then
      match rest with
      | [] => none
      | d :: ds =>
        if d = ']' then (if ds.isEmpty then some [] else none)
        else
          match parseElemsAux rest.length rest with
          | some (ss, []) => some (ss.map fun s => ⟨s⟩)
          | _ => none
    else none

theorem parseStrBody_encStr (s rest : List Char) :
    parseStrBody (s.flatMap escChar ++ '"' :: rest) = some (s, rest) := by
  induction s with
  | nil => simp [parseStrBody_cons]
  | cons c cs ih =>
    by_cases h1 : c = '"'
    · simp [escChar, h1, parseStrBody_cons, unescapeChar, ih]
    · by_cases h2 : c = '\\'
      · simp [escChar, h1, h2, parseStrBody_cons, unescapeChar, ih]
      · by_cases h3 : c = '\n'
        · simp [escChar, h1, h2, h3, parseStrBody_cons, unescapeChar, ih]
        · by_cases h4 : c = '\r'
          · simp [escChar, h1, h2, h3, h4, parseStrBody_cons, unescapeChar, ih]
          · by_cases h5 : c = '\t'
            · simp [escChar, h1, h2, h3, h4, h5, parseStrBody_cons, unescapeChar, ih]
            · simp [escChar, h1, h2, h3, h4, h5, parseStrBody_cons, ih]

theorem parseElemsAux_encElems : ∀ (ls : List (List Char)) (fuel : Nat),
    ls ≠ [] → ls.length ≤ fuel →
    parseElemsAux fuel (encElems ls ++ [']']) = some (ls, []) := by
  intro ls
  induction ls with
  | nil => intro fuel hne hf; exact absurd rfl hne
  | cons s ss ih =>
    intro fuel hne hf
    match fuel, hf with
    | f + 1, hf =>
      match ss, ih, hf with
      | [], _, _ =>
        have harr : encElems [s] ++ [']'] = '"' :: (s.flatMap escChar ++ '"' :: [']']) := by
          simp [encElems, encStr]
        rw [harr, parseElemsAux]
        simp [parseStrBody_encStr s [']']]
      | s' :: ss', ih, hf =>
        have harr : encElems (s :: s' :: ss') ++ [']'] =
            '"' :: (s.flatMap escChar ++ '"' :: (',' :: (encElems (s' :: ss') ++ [']']))) := by
          simp [encElems, encStr]
        have hf' : (s' :: ss').length ≤ f := by simp at hf ⊢; omega
        rw [harr, parseElemsAux]
        simp [parseStrBody_encStr s (',' :: (encElems (s' :: ss') ++ [']'])), ih f (by simp) hf']

theorem encElems_cons (s : List Char) (ls : List (List Char)) :
    ∃ t, encElems (s :: ls) = '"' :: t := by
  match ls with
  | [] => exact ⟨_, rfl⟩
  | s' :: ss => exact ⟨_, rfl⟩

theorem encElems_fuel : ∀ (ls : List (List Char)), ls.length ≤ (encElems ls ++ [']']).length := by
  intro ls
  induction ls with
  | nil => simp
  | cons s ss ih =>
    match ss, ih with
    | [], _ => simp [encElems, encStr]
    | s' :: ss', ih =>
      have : encElems (s :: s' :: ss') = encStr s ++ ',' :: encElems (s' :: ss') := rfl
      simp only [this, encStr] at *
      simp at ih ⊢
      omega

/-- The JSON round trip on string arrays: parsing what was stringified
returns the original list. -/
theorem jsonParse_jsonStringify (l : List String) :
    jsonParseStringArray (jsonStringifyStringArray l) = some l := by
  match l with
  | [] => rfl
  | s :: ss =>
    obtain ⟨t, ht⟩ := encElems_cons s.data (ss.map String.data)
    have hmap : (s :: ss).map String.data = s.data :: ss.map String.data := rfl
    have hfuel : ((s :: ss).map String.data).length
        ≤ (encElems ((s :: ss).map String.data) ++ [']']).length := encElems_fuel _
    have hparse := parseElemsAux_encElems ((s :: ss).map String.data)
      ((encElems ((s :: ss).map String.data) ++ [']']).length) (by simp) hfuel
    have hdata : (jsonStringifyStringArray (s :: ss)).data
        = '[' :: (encElems ((s :: ss).map String.data) ++ [']']) := rfl
    rw [jsonParseStringArray, hdata]
    have hqb : ('"' : Char) = ']' ↔ False := by simp
    have hid : ∀ u : String, (⟨u.data⟩ : String) = u := fun _ => rfl
    have hcomp : List.map ((fun u : List Char => (⟨u⟩ : String)) ∘ String.data) ss = ss := by
      have hcid : ((fun u : List Char => (⟨u⟩ : String)) ∘ String.data) = id := funext fun u => rfl
      rw [hcid, List.map_id]
    rw [hmap, ht] at hparse ⊢
    simp only [List.cons_append] at hparse
    have hlen2 : ('"' :: (t ++ [']'])).length = t.length + 1 + 1 := by simp
    rw [hlen2] at hparse
    simp [hqb, hparse, List.map_map, hid, hcomp]

/-! ## StateStore (src/state.ts)

Three SQLite tables keyed by `did TEXT PRIMARY KEY`: `cursors`, `did_cache`
and `service_cache`.  `getServiceCache` JSON-parses the stored `labelValues`
TEXT column; a parse failure (which in the source would throw) is modelled
as a miss. -/

/-- Row of the did_cache table. -/
structure DidCacheRecord where
  did : String
  serviceEndpoint : String
  publicKey : String
  cachedAt : Int
  deriving Repr, DecidableEq

/-- Decoded service_cache record (labelValues as a list). -/
structure ServiceCacheRecord where
  did : String
  labelValues : List String
  cachedAt : Int
  deriving Repr, DecidableEq

/-- Serialized row of the service_cache table (labelValues as stored TEXT). -/
structure ServiceCacheRow where
  did : String
  labelValues : String
  cachedAt : Int
  deriving Repr, DecidableEq

/-- The persistent SQLite-backed store. -/
structure StateStore where
  cursors : List (String × Int)
  didCache : List (String × DidCacheRecord)
  serviceCache : List (String × ServiceCacheRow)
  deriving Repr, DecidableEq

/-- A store with empty tables, as produced by StateStore.init. -/
def StateStore.empty : StateStore := ⟨[], [], []⟩

/-- SELECT cursor FROM cursors WHERE did = ?. -/
def StateStore.getCursor (st : StateStore) (did : String) : Option Int :=
  lookupKey st.cursors did

/-- INSERT OR REPLACE INTO cursors. -/
def StateStore.setCursor (st : StateStore) (did : String) (cursor : Int) : StateStore :=
  { st with cursors := upsert st.cursors did cursor }

/-- SELECT * FROM did_cache WHERE did = ? (no TTL logic in the source). -/
def StateStore.getDidCache (st : StateStore) (did : String) : Option DidCacheRecord :=
  lookupKey st.didCache did

/-- INSERT OR REPLACE INTO did_cache. -/
def StateStore.setDidCache (st : StateStore) (record : DidCacheRecord) : StateStore :=
  { st with didCache := upsert st.didCache record.did record }

/-- SELECT * FROM service_cache WHERE did = ?, then JSON.parse the
labelValues column (no TTL logic in the source). -/
def StateStore.getServiceCache (st : StateStore) (did : String) : Option ServiceCacheRecord :=
  match lookupKey st.serviceCache did with
  | none => none
  | some row =>
    match jsonParseStringArray row.labelValues with
    | none => none
    | some lv => some ⟨row.did, lv, row.cachedAt⟩

/-- INSERT OR REPLACE INTO service_cache with JSON.stringify of labelValues. -/
def StateStore.setServiceCache (st : StateStore) (record : ServiceCacheRecord) : StateStore :=
  { st with serviceCache := (upsert st.serviceCache record.did
      ⟨record.did, jsonStringifyStringArray record.labelValues, record.cachedAt⟩) }

/-- Association-list delete (used only by the spec-modelled TTL reads). -/
def deleteKey {α : Type} : List (String × α) → String → List (String × α)
  | [], _ => []
  | (k', v') :: rest, k => if k' = k then rest else (k', v') :: deleteKey rest k

/-- The 24-hour TTL in milliseconds named by the spec. -/
def ttl24hMs : Int := 86400000

/-- Modelled from the spec: the identity-cache read the spec describes, which
computes age = now - cachedAt and, if age > 24h, deletes the row and returns a
miss.  The source has no such logic; this is the comparison point for C3. -/
def specGetDidCacheTtl (now : Int) (st : StateStore) (did : String) :
    Option DidCacheRecord × StateStore :=
  match lookupKey st.didCache did with
  | none => (none, st)
  | some r =>
    if now - r.cachedAt > ttl24hMs then
      (none, { st with didCache := deleteKey st.didCache did })
    else (some r, st)

/-- Modelled from the spec: the service-cache read the spec describes, with
the row deleted and a miss returned when age = now - cachedAt exceeds 24h. -/
def specGetServiceCacheTtl (now : Int) (st : StateStore) (did : String) :
    Option ServiceCacheRecord × StateStore :=
  match lookupKey st.serviceCache did with
  | none => (none, st)
  | some row =>
    if now - row.cachedAt > ttl24hMs then
      (none, { st with serviceCache := deleteKey st.serviceCache did })
    else
      match jsonParseStringArray row.labelValues with
      | none => (none, st)
      | some lv => (some ⟨row.did, lv, row.cachedAt⟩, st)

/-- Claim C10: for every DID and record, a State Store read immediately after
a write returns exactly what was written (cursor, identity cache, service
cache: the labelValues list survives the JSON serialisation round trip), and
a second write for the same DID overwrites the first (upsert, last write
wins). -/
theorem c10_read_after_write :
    (∀ (st : StateStore) (d : String) (c : Int),
      (st.setCursor d c).getCursor d = some c) ∧
    (∀ (st : StateStore) (r : DidCacheRecord),
      (st.setDidCache r).getDidCache r.did = some r) ∧
    (∀ (st : StateStore) (r : ServiceCacheRecord),
      (st.setServiceCache r).getServiceCache r.did = some r) ∧
    (∀ (st : StateStore) (d : String) (c1 c2 : Int),
      ((st.setCursor d c1).setCursor d c2).getCursor d = some c2) ∧
    (∀ (st : StateStore) (r1 : DidCacheRecord) (ep2 pk2 : String) (t2 : Int),
      ((st.setDidCache r1).setDidCache ⟨r1.did, ep2, pk2, t2⟩).getDidCache r1.did
        = some ⟨r1.did, ep2, pk2, t2⟩) ∧
    (∀ (st : StateStore) (r1 : ServiceCacheRecord) (lv2 : List String) (t2 : Int),
      ((st.setServiceCache r1).setServiceCache ⟨r1.did, lv2, t2⟩).getServiceCache r1.did
        = some ⟨r1.did, lv2, t2⟩) := by
  refine ⟨?_, ?_, ?_, ?_, ?_, ?_⟩ <;>
    intros <;>
    simp [StateStore.setCursor, StateStore.getCursor, StateStore.setDidCache,
      StateStore.getDidCache, StateStore.setServiceCache, StateStore.getServiceCache,
      lookupKey_upsert_self, jsonParse_jsonStringify]

/-- Claim C3 counterexample: a did_cache and a service_cache entry written
with cachedAt = 0 and read at now = 90000000 ms (age 25 h, beyond the 24-hour
TTL) are still returned by the code reads, whereas the TTL-checking read the
spec describes reports a miss for both; so an entry older than 24 hours IS
returned, contradicting the claim. -/
theorem c3_ttl_counterexample :
    ((StateStore.empty.setDidCache
          ⟨"did:plc:alice", "https://labeler.example", "zQ3key", 0⟩).getDidCache
        "did:plc:alice"
      = some ⟨"did:plc:alice", "https://labeler.example", "zQ3key", 0⟩) ∧
    ((StateStore.empty.setServiceCache
          ⟨"did:plc:alice", ["spam"], 0⟩).getServiceCache "did:plc:alice"
      = some ⟨"did:plc:alice", ["spam"], 0⟩) ∧
    ((specGetDidCacheTtl 90000000
        (StateStore.empty.setDidCache
          ⟨"did:plc:alice", "https://labeler.example", "zQ3key", 0⟩)
        "did:plc:alice").1 = none) ∧
    ((specGetServiceCacheTtl 90000000
        (StateStore.empty.setServiceCache
          ⟨"did:plc:alice", ["spam"], 0⟩) "did:plc:alice").1 = none) ∧
    (90000000 : Int) - 0 > ttl24hMs := by
  refine ⟨rfl, rfl, rfl, rfl, by decide⟩

/-- Claim C3 amended: the code reads have no TTL check at all: whatever record
a read returns, the TTL-checking read of the spec agrees with it exactly when
the entry is at most 24 hours old, and differs (reports a miss) on any older
entry. -/
theorem c3_no_ttl_on_read (now : Int) (st : StateStore) (d : String) :
    (∀ r, st.getDidCache d = some r →
      ((specGetDidCacheTtl now st d).1 = some r ↔ now - r.cachedAt ≤ ttl24hMs)) ∧
    (∀ r, st.getServiceCache d = some r →
      ((specGetServiceCacheTtl now st d).1 = some r ↔ now - r.cachedAt ≤ ttl24hMs)) := by
  constructor
  · intro r hr
    rw [StateStore.getDidCache] at hr
    by_cases hage : now - r.cachedAt > ttl24hMs
    · simp [specGetDidCacheTtl, hr, hage]
      omega
    · simp [specGetDidCacheTtl, hr, hage]
      omega
  · intro r hr
    match hrow : lookupKey st.serviceCache d with
    | none => simp [StateStore.getServiceCache, hrow] at hr
    | some row =>
      simp only [StateStore.getServiceCache, hrow] at hr
      match hlv : jsonParseStringArray row.labelValues with
      | none => simp [hlv] at hr
      | some lv =>
        simp only [hlv, Option.some.injEq] at hr
        subst hr
        by_cases hage : now - row.cachedAt > ttl24hMs
        · simp [specGetServiceCacheTtl, hrow, hlv, hage]
          omega
        · simp [specGetServiceCacheTtl, hrow, hlv, hage]
          omega

/-- Witness for C3 amended: a fresh entry (cachedAt 500, read at now 1000) is
returned identically by the code read and by the TTL-checking read. -/
theorem c3_no_ttl_on_read_witness :
    (specGetDidCacheTtl 1000
        (StateStore.empty.setDidCache ⟨"did:plc:a", "https://ep.example", "zk", 500⟩)
        "did:plc:a").1
      = some ⟨"did:plc:a", "https://ep.example", "zk", 500⟩ :=
  ((c3_no_ttl_on_read 1000
      (StateStore.empty.setDidCache ⟨"did:plc:a", "https://ep.example", "zk", 500⟩)
      "did:plc:a").1
    ⟨"did:plc:a", "https://ep.example", "zk", 500⟩ rfl).mpr (by decide)

/-! ## LabelValidator (src/labelValidator.ts)

Asynchronous network collaborators are parameters of a `ValidatorEnv`; the
60-second in-memory cache created by `makeCache(60_000)` is the `MemCache`
(restricted to the `did::id` key of the one DID a validation run touches;
the `inFlight` map is always empty at every step of this sequential
embedding because entries are removed in the `finally` block).  The PDS
resolution, HTTP record fetch and lexicon check inside `fetchServiceRecord`
are abstracted into the single `fetchServiceValues` result. -/

/-- A label as received on the wire; `sig` holds the decoded signature bytes
and absent optional fields are `none`.  Required string fields that are
absent on the wire are modelled as the empty string, which is exactly what
the JS falsiness test of the shape check treats as missing. -/
structure Label where
  ver : Option Int := none
  src : String
  uri : String
  cid : Option String := none
  val : String
  neg : Option Bool := none
  cts : String
  exp : Option String := none
  sig : Option (List Nat) := none
  deriving Repr, DecidableEq

/-- The distinct failure reasons produced by the validator (stand-ins for
the human-readable message strings of the source). -/
inductive Reason where
  | missingField (name : String)
  | srcMismatch
  | noSignature
  | couldNotResolveKey
  | invalidSignature
  | invalidSignatureAfterRefresh
  | couldNotFetchServiceRecord
  | valueNotDeclared (val : String)
  | expired
  deriving Repr, DecidableEq

/-- The { valid, reason? } result record of the validator. -/
structure ValidationResult where
  valid : Bool
  reason : Option Reason := none
  deriving Repr, DecidableEq

/-- An entry of a resolved DID document's verificationMethod array. -/
structure VerificationMethod where
  id : String
  publicKeyMultibase : Option String
  deriving Repr, DecidableEq

/-- An entry of a resolved DID document's service array (a non-string
serviceEndpoint is modelled as none, matching the typeof check). -/
structure ServiceEntry where
  id : String
  serviceEndpoint : Option String
  deriving Repr, DecidableEq

/-- A resolved DID document. -/
structure DidDoc where
  verificationMethod : List VerificationMethod
  service : List ServiceEntry
  deriving Repr, DecidableEq

/-- External collaborators of one validation run: `resolve` models
`idResolver.resolve` for the relevant DID (its argument is the `noCache`
flag); `parseKey` models `parsePublicMultikey`, returning the parsed key
bytes (malformed-key exceptions are out of scope); `verify` models
`verifySig` applied to the fixed decoded signature and canonical CBOR
payload of the given label; `fetchServiceValues` models the
`com.atproto.repo.getRecord` fetch of `policies.labelValues` (`none` is any
failure); `now` models `Date.now()`; `parseDate` models
`new Date(string).getTime()`. -/
structure ValidatorEnv where
  resolve : Bool → Option DidDoc
  parseKey : String → List Nat
  verify : List Nat → Label → Bool
  fetchServiceValues : Option (List String)
  now : Int
  parseDate : String → Int

/-- The in-memory cache made by `makeCache(60_000)`, restricted to the
`did::id` key: the cached DID document together with its expiry time. -/
structure MemCache where
  idEntry : Option (DidDoc × Int)
  deriving Repr, DecidableEq

/-- `cache.get`: return the value only while `expires > now`. -/
def memCacheGet (mem : MemCache) (now : Int) : Option DidDoc :=
  match mem.idEntry with
  | some (doc, expires) => if expires > now then some doc else none
  | none => none

/-- The `this.fetch` single-flight wrapper applied to the `did::id` key:
return the memory-cached value if present and fresh, otherwise run the
resolver and cache a successful result for 60 s (a rejected promise caches
nothing). -/
def fetchIdCached (env : ValidatorEnv) (mem : MemCache) (noCache : Bool) :
    Option DidDoc × MemCache :=
  match memCacheGet mem env.now with
  | some doc => (some doc, mem)
  | none =>
    match env.resolve noCache with
    | none => (none, mem)
    | some doc => (some doc, ⟨some (doc, env.now + 60000)⟩)

/-- The JS String.prototype.endsWith test, via character lists (so that it
evaluates inside the kernel). -/
def strEndsWith (s suf : String) : Bool := suf.data.isSuffixOf s.data

/-- The JS String.prototype.startsWith test, via character lists. -/
def strStartsWith (s pre : String) : Bool := pre.data.isPrefixOf s.data

/-- The straight-line extraction in `fetchLabelerDidData` after a
resolution: select the `#atproto_label` verification key and the
`#atproto_labeler` service endpoint (empty strings are falsy and rejected)
and build the DidCacheRecord with `cachedAt = now`; none on any failure. -/
def selectLabelerRecord (now : Int) (did : String) (doc : DidDoc) :
    Option DidCacheRecord :=
  match (doc.verificationMethod.find? fun vm =>
      strEndsWith vm.id "#atproto_label").bind (fun vm => vm.publicKeyMultibase) with
  | none => none
  | some pk =>
    if pk = "" then none
    else
      match (doc.service.find? fun sv =>
          strEndsWith sv.id "#atproto_labeler").bind (fun sv => sv.serviceEndpoint) with
      | none => none
      | some ep =>
        if ep = "" then none
        else some ⟨did, ep, pk, now⟩

/-- `LabelValidator.fetchLabelerDidData`: consult the persistent DID cache
unless `forceRefresh`; otherwise resolve through the in-memory fetch wrapper
with `noCache = forceRefresh`, extract the record with
`selectLabelerRecord`, store it into the DID cache and return it. -/
def fetchLabelerDidData (env : ValidatorEnv) (st : StateStore) (mem : MemCache)
    (did : String) (forceRefresh : Bool) :
    Option DidCacheRecord × StateStore × MemCache :=
  match (if forceRefresh then none else st.getDidCache did) with
  | some cached => (some cached, st, mem)
  | none =>
    match (fetchIdCached env mem forceRefresh).1 with
    | none => (none, st, (fetchIdCached env mem forceRefresh).2)
    | some doc =>
      match selectLabelerRecord env.now did doc with
      | none => (none, st, (fetchIdCached env mem forceRefresh).2)
      | some r => (some r, st.setDidCache r, (fetchIdCached env mem forceRefresh).2)

/-- `LabelValidator.getLabelerPubKey`: fetch the DID data and parse the
multikey into key bytes (an empty stored key string is falsy and yields
null). -/
def getLabelerPubKey (env : ValidatorEnv) (st : StateStore) (mem : MemCache)
    (did : String) (forceRefresh : Bool) :
    Option (List Nat) × StateStore × MemCache :=
  match fetchLabelerDidData env st mem did forceRefresh with
  | (none, st2, mem2) => (none, st2, mem2)
  | (some record, st2, mem2) =>
    if record.publicKey = "" then (none, st2, mem2)
    else (some (env.parseKey record.publicKey), st2, mem2)

/-- The JS comparison `refreshed.publicKeyBytes.every((b, i) => b ===
old.publicKeyBytes[i])`: true iff the refreshed bytes are a prefix of the
old bytes (an out-of-range index reads undefined, which never equals a
number). -/
def everyByteEq : List Nat → List Nat → Bool
  | [], _ => true
  | _ :: _, [] => false
  | b :: bs, c :: cs => b == c && everyByteEq bs cs

/-- `LabelValidator.verifySignature`: obtain the key through the caches and
verify; on failure obtain the key again with `forceRefresh = true` and retry
exactly once, only when the refreshed bytes fail the JS every-comparison
against the first key. -/
def verifySignature (env : ValidatorEnv) (st : StateStore) (mem : MemCache)
    (label : Label) : ValidationResult × StateStore × MemCache :=
  match label.sig with
  | none => ({ valid := false, reason := some .noSignature }, st, mem)
  | some _ =>
    match getLabelerPubKey env st mem label.src false with
    | (none, st1, mem1) =>
      ({ valid := false, reason := some .couldNotResolveKey }, st1, mem1)
    | (some pk, st1, mem1) =>
      if env.verify pk label then ({ valid := true }, st1, mem1)
      else
        match getLabelerPubKey env st1 mem1 label.src true with
        | (some rk, st2, mem2) =>
          if !(everyByteEq rk pk) then
            if env.verify rk label then ({ valid := true }, st2, mem2)
            else ({ valid := false, reason := some .invalidSignatureAfterRefresh }, st2, mem2)
          else ({ valid := false, reason := some .invalidSignature }, st2, mem2)
        | (none, st2, mem2) =>
          ({ valid := false, reason := some .invalidSignature }, st2, mem2)

/-- `LabelValidator.fetchServiceRecord`: the PDS resolution, record GET and
lexicon check are abstracted into `env.fetchServiceValues`; on success the
record `{did, labelValues, cachedAt = now}` is stored into the service cache
and returned, on any failure null. -/
def fetchServiceRecord (env : ValidatorEnv) (st : StateStore) (did : String) :
    Option ServiceCacheRecord × StateStore :=
  match env.fetchServiceValues with
  | none => (none, st)
  | some lv => (some ⟨did, lv, env.now⟩, st.setServiceCache ⟨did, lv, env.now⟩)

/-- `LabelValidator.validateLabelValue`: use the cached declared values when
the service cache holds an entry for the DID, otherwise fetch the service
record; then test membership of `val` in that list.  No global value list is
consulted in this code. -/
def validateLabelValue (env : ValidatorEnv) (st : StateStore) (did : String)
    (val : String) : ValidationResult × StateStore :=
  match st.getServiceCache did with
  | some cached =>
    if cached.labelValues.contains val then ({ valid := true }, st)
    else ({ valid := false, reason := some (.valueNotDeclared val) }, st)
  | none =>
    match fetchServiceRecord env st did with
    | (none, st2) => ({ valid := false, reason := some .couldNotFetchServiceRecord }, st2)
    | (some srec, st2) =>
      if srec.labelValues.contains val then ({ valid := true }, st2)
      else ({ valid := false, reason := some (.valueNotDeclared val) }, st2)

/-- The missing-required-field check of `validateLabel`: the keys src, uri,
val, cts, sig in order, with JS falsiness (absent or empty string; an absent
sig). -/
def missingRequired (label : Label) : Option String :=
  if label.src = "" then some "src"
  else if label.uri = "" then some "uri"
  else if label.val = "" then some "val"
  else if label.cts = "" then some "cts"
  else if label.sig = none then some "sig"
  else none

/-- `LabelValidator.validateLabel`: shape, source match, signature, declared
value, expiry — the first failure wins.  An empty `exp` string is falsy and
skips the expiry check, as in the source. -/
def validateLabel (env : ValidatorEnv) (st : StateStore) (mem : MemCache)
    (label : Label) (did : String) : ValidationResult × StateStore × MemCache :=
  match missingRequired label with
  | some k => ({ valid := false, reason := some (.missingField k) }, st, mem)
  | none =>
    if label.src ≠ did then ({ valid := false, reason := some .srcMismatch }, st, mem)
    else
      match verifySignature env st mem label with
      | (sres, st1, mem1) =>
        if !sres.valid then (sres, st1, mem1)
        else
          match validateLabelValue env st1 label.src label.val with
          | (vres, st2) =>
            if !vres.valid then (vres, st2, mem1)
            else
              match label.exp with
              | some e =>
                if e = "" then ({ valid := true }, st2, mem1)
                else if env.parseDate e ≤ env.now then
                  ({ valid := false, reason := some .expired }, st2, mem1)
                else ({ valid := true }, st2, mem1)
              | none => ({ valid := true }, st2, mem1)

/-- The fixed global label values named by the spec (the constant
GLOBAL_LABEL_VALUES of an earlier revision of this validator; the current
validateLabelValue never consults it). -/
def GLOBAL_LABEL_VALUES : List String :=
  ["porn", "sexual", "nudity", "graphic-media", "gore"]

/-- An inert environment for concrete runs in which every collaborator
fails or rejects. -/
def trivialEnv : ValidatorEnv where
  resolve := fun _ => none
  parseKey := fun _ => []
  verify := fun _ _ => false
  fetchServiceValues := none
  now := 0
  parseDate := fun _ => 0

/-! ## LabelerSubscriber (src/state.ts, second unit) and JetstreamWatcher
(src/jetstreamWatcher.ts) -/

/-- The row inserted into the label table by processLabel (JS falsiness:
a missing or empty cid becomes the empty string, a missing neg becomes
false, a missing or empty exp becomes null). -/
structure DbLabel where
  src : String
  uri : String
  cid : String
  val : String
  neg : Bool
  cts : String
  exp : Option String
  deriving Repr, DecidableEq

/-- The dbLabel object built in processLabel. -/
def dbLabelOf (label : Label) : DbLabel where
  src := label.src
  uri := label.uri
  cid := match label.cid with
    | some c => c
    | none => ""
  val := label.val
  neg := match label.neg with
    | some b => b
    | none => false
  cts := label.cts
  exp := match label.exp with
    | some e => if e = "" then none else some e
    | none => none

/-- The observable effects of processing a labels message, in order of
occurrence: the cursor write, sink inserts, dropped labels, and the
dataplane calls of handleTakedown. -/
inductive Event where
  | cursorSet (did : String) (seq : Int)
  | labelInserted (row : DbLabel)
  | labelDropped (src : String) (reason : Option Reason)
  | takedownActor (did ref : String)
  | untakedownActor (did : String)
  | takedownRecord (recordUri ref : String)
  | untakedownRecord (recordUri : String)
  | takedownError (uri : String)
  deriving Repr, DecidableEq

/-- A character matched by the regex class `[^[0-9a-zA-Z]` of handleTakedown:
anything that is neither an ASCII alphanumeric nor the literal opening
bracket that appears inside the class. -/
def strippedByRegex (c : Char) : Bool :=
  !(c.isAlphanum || c == '[')

/-- `cts.replaceAll(/[^[0-9a-zA-Z]/g, "")`: drop every matched character. -/
def replaceAllStripped : List Char → List Char
  | [] => []
  | c :: cs =>
    if strippedByRegex c then replaceAllStripped cs else c :: replaceAllStripped cs

/-- The ref string derived in handleTakedown. -/
def refFromCts (cts : String) : String :=
  "BSKY-TAKEDOWN-" ++ ⟨replaceAllStripped cts.data⟩

/-- Modelled from the spec claim for C9: the ref with every non-alphanumeric
character of cts stripped (the comparison point; the source keeps the
bracket). -/
def specRefEveryNonAlnumStripped (cts : String) : String :=
  "BSKY-TAKEDOWN-" ++ ⟨cts.data.filter Char.isAlphanum⟩

/-- `LabelerSubscriber.handleTakedown`: the dataplane calls dispatched for a
takedown label, by subject kind and negation (an unrecognised subject throws
and is logged as an error, producing no call). -/
def handleTakedown (label : Label) : List Event :=
  let ref := refFromCts label.cts
  if strStartsWith label.uri "did:" then
    if (match label.neg with | some b => b | none => false) = false then
      [.takedownActor label.uri ref]
    else [.untakedownActor label.uri]
  else if strStartsWith label.uri "at://" then
    if (match label.neg with | some b => b | none => false) = false then
      [.takedownRecord label.uri ref]
    else [.untakedownRecord label.uri]
  else [.takedownError label.uri]

/-- What the LabelerSubscriber constructor keeps from its options: the
dataplane client exists iff dataplaneUrls is present and nonempty
(`options.dataplaneUrls?.length` truthiness); modServiceDid is accepted in
the options type but never read by any method. -/
structure SubscriberConfig where
  hasDataplane : Bool
  modServiceDid : Option String
  deriving Repr, DecidableEq

/-- The constructor check `if (options.dataplaneUrls?.length)`. -/
def mkSubscriberConfig (dataplaneUrls : Option (List String))
    (modServiceDid : Option String) : SubscriberConfig where
  hasDataplane := match dataplaneUrls with
    | some urls => urls.length != 0
    | none => false
  modServiceDid := modServiceDid

/-- `LabelerSubscriber.processLabel`: validate, log-and-drop an invalid
label, insert the row on success (sink errors are not modelled). -/
def processLabel (env : ValidatorEnv) (st : StateStore) (mem : MemCache)
    (label : Label) (did : String) : StateStore × MemCache × List Event :=
  match validateLabel env st mem label did with
  | (res, st1, mem1) =>
    if res.valid then (st1, mem1, [.labelInserted (dbLabelOf label)])
    else (st1, mem1, [.labelDropped label.src res.reason])

/-- The per-label loop of `processLabelsMessage`: process each label in
order and, when a dataplane client exists and the value is "!takedown",
dispatch handleTakedown for it. -/
def processLabels (cfg : SubscriberConfig) (env : ValidatorEnv) :
    StateStore → MemCache → List Label → String → StateStore × MemCache × List Event
  | st, mem, [], _ => (st, mem, [])
  | st, mem, label :: rest, did =>
    match processLabel env st mem label did with
    | (st1, mem1, evs1) =>
      let evs2 := if cfg.hasDataplane && (label.val == "!takedown")
        then handleTakedown label else []
      match processLabels cfg env st1 mem1 rest did with
      | (st2, mem2, evs3) => (st2, mem2, evs1 ++ evs2 ++ evs3)

/-- A `#labels` frame. -/
structure LabelsMessage where
  seq : Int
  labels : List Label
  deriving Repr, DecidableEq

/-- `LabelerSubscriber.processLabelsMessage`: persist the cursor to the
frame seq, then run the per-label loop; the trace records the cursor write
followed by the per-label effects in order. -/
def processLabelsMessage (cfg : SubscriberConfig) (env : ValidatorEnv)
    (st : StateStore) (mem : MemCache) (did : String) (message : LabelsMessage) :
    StateStore × MemCache × List Event :=
  match processLabels cfg env (st.setCursor did message.seq) mem message.labels did with
  | (st1, mem1, evs) => (st1, mem1, .cursorSet did message.seq :: evs)

/-- The rows handed to the sink for a list of labels, in frame order,
recomputed by an independent pass that only tracks validation outcomes. -/
def acceptedRows (env : ValidatorEnv) :
    StateStore → MemCache → List Label → String → List DbLabel
  | _, _, [], _ => []
  | st, mem, label :: rest, did =>
    match validateLabel env st mem label did with
    | (res, st1, mem1) =>
      if res.valid then dbLabelOf label :: acceptedRows env st1 mem1 rest did
      else acceptedRows env st1 mem1 rest did

/-- Projection of a trace to the inserted rows, in order. -/
def insertedRowsOf : List Event → List DbLabel
  | [] => []
  | .labelInserted row :: rest => row :: insertedRowsOf rest
  | _ :: rest => insertedRowsOf rest

/-- `maxReconnectAttempts` of LabelerSubscriber. -/
def maxReconnectAttempts : Nat := 10

/-- `reconnectDelay` of LabelerSubscriber (milliseconds). -/
def reconnectDelay : Nat := 5000

/-- `LabelerSubscriber.handleReconnect` acting on the attempts counter:
none when the maximum is reached (no timer scheduled), otherwise the
incremented counter and the delay of the scheduled timer. -/
def handleReconnect (attempts : Nat) : Option (Nat × Nat) :=
  if attempts ≥ maxReconnectAttempts then none
  else some (attempts + 1, reconnectDelay * (attempts + 1))

/-- The delays of the successive reconnect timers during a continuous outage
(every scheduled attempt fails and calls handleReconnect again).  The fuel
is a generous recursion bound; termination of the outage genuinely comes
from handleReconnect returning none, not from the fuel. -/
def outageDelaysAux : Nat → Nat → List Nat
  | 0, _ => []
  | fuel + 1, attempts =>
    match handleReconnect attempts with
    | none => []
    | some (a2, d) => d :: outageDelaysAux fuel a2

/-- Outage delays from a given attempts counter. -/
def outageDelays (attempts : Nat) : List Nat :=
  outageDelaysAux 1000 attempts

/-- A jetstream commit event (the fields the watcher inspects). -/
structure JetstreamEvent where
  did : String
  kind : String
  operation : String
  deriving Repr, DecidableEq

/-- `JetstreamWatcher.handleServiceRecordChange`: if a service-cache entry
exists for the DID, rewrite it with an empty labelValues list and
cachedAt = 0. -/
def handleServiceRecordChange (st : StateStore) (did : String) : StateStore :=
  match st.getServiceCache did with
  | some _ => st.setServiceCache ⟨did, [], 0⟩
  | none => st

/-- The event filter of `JetstreamWatcher.start`: wanted DID, commit kind,
create or update operation, not aborted. -/
def watcherHandleEvent (wantedDids : List String) (aborted : Bool)
    (st : StateStore) (evt : JetstreamEvent) : StateStore :=
  if wantedDids.contains evt.did && (evt.kind == "commit")
      && (evt.operation == "update" || evt.operation == "create")
      && !aborted then
    handleServiceRecordChange st evt.did
  else st

/-! ## Theorems for the claims -/

/-- Claim C2 counterexample: a publisher with an empty (cached) declared
values list and val = "porn": the claim says the label value check accepts
it because "porn" is in the fixed global set, but the code rejects it with
the not-in-declared-values reason — no global list is consulted. -/
theorem c2_global_values_counterexample :
    ((validateLabelValue trivialEnv
        (StateStore.empty.setServiceCache ⟨"did:plc:lab", [], 5⟩)
        "did:plc:lab" "porn").1
      = ⟨false, some (.valueNotDeclared "porn")⟩) ∧
    "porn" ∈ GLOBAL_LABEL_VALUES := by
  refine ⟨rfl, by decide⟩

/-- Claim C2 amended: the declared-value check accepts val exactly when val
is contained in the declared values of the publisher — the cached list on a
cache hit, the freshly fetched list on a miss — and the fixed global set is
never consulted, so a global value is rejected whenever it is not declared. -/
theorem c2_declared_values_only (env : ValidatorEnv) (st0 : StateStore)
    (d val : String) (lv fetched : List String) (t : Int) :
    ((validateLabelValue env (st0.setServiceCache ⟨d, lv, t⟩) d val).1.valid
        = lv.contains val) ∧
    ((validateLabelValue { env with fetchServiceValues := some fetched }
        StateStore.empty d val).1.valid = fetched.contains val) := by
  constructor
  · have hget : (st0.setServiceCache ⟨d, lv, t⟩).getServiceCache d = some ⟨d, lv, t⟩ := by
      simp [StateStore.setServiceCache, StateStore.getServiceCache, lookupKey_upsert_self,
        jsonParse_jsonStringify]
    by_cases hc : val ∈ lv <;> simp [validateLabelValue, hget, hc]
  · have hget : (StateStore.empty).getServiceCache d = none := rfl
    by_cases hc : val ∈ fetched <;>
      simp [validateLabelValue, hget, fetchServiceRecord, hc]

/-- Claim C1: the takedown dispatch gate.  With a dataplane configured and a
moderation service DID configured, a frame from the subscribed publisher
did:plc:other carrying a "!takedown" label whose signature-key resolution
fails: the label is dropped as invalid, its src differs from the moderation
DID — and the code still makes exactly one takedownActor dataplane call.
Moreover the configured modServiceDid is never read: the run is identical
for every value of it. -/
theorem c1_takedown_dispatch_bug :
    ((processLabelsMessage
        (mkSubscriberConfig (some ["https://dp.example"]) (some "did:plc:mod"))
        trivialEnv StateStore.empty ⟨none⟩ "did:plc:other"
        ⟨1, [{ src := "did:plc:other", uri := "did:plc:victim", val := "!takedown",
                cts := "2024-05-06T07:08:09.123Z", sig := some [1] }]⟩).2.2
      = [.cursorSet "did:plc:other" 1,
         .labelDropped "did:plc:other" (some .couldNotResolveKey),
         .takedownActor "did:plc:victim" "BSKY-TAKEDOWN-20240506T070809123Z"]) ∧
    ((mkSubscriberConfig (some ["https://dp.example"]) (some "did:plc:mod")).modServiceDid
        ≠ some "did:plc:other") ∧
    (∀ m : Option String,
      processLabelsMessage (mkSubscriberConfig (some ["https://dp.example"]) m)
        trivialEnv StateStore.empty ⟨none⟩ "did:plc:other"
        ⟨1, [{ src := "did:plc:other", uri := "did:plc:victim", val := "!takedown",
                cts := "2024-05-06T07:08:09.123Z", sig := some [1] }]⟩
      = processLabelsMessage (mkSubscriberConfig (some ["https://dp.example"]) none)
        trivialEnv StateStore.empty ⟨none⟩ "did:plc:other"
        ⟨1, [{ src := "did:plc:other", uri := "did:plc:victim", val := "!takedown",
                cts := "2024-05-06T07:08:09.123Z", sig := some [1] }]⟩) := by
  refine ⟨rfl, by decide, fun m => rfl⟩

/-- Claim C4: after the Change Watcher handles a commit event for publisher
did:plc:pub whose service cache holds ["spam"], the next read of the service
cache is a HIT on the rewritten entry {[], 0} — not the miss the claim
requires — and the next validation (here of the newly declared value "scam",
with the service record fetch able to return ["spam", "scam"]) rejects the
label using the empty cached list without refetching: the returned state has
no new service-cache write. -/
theorem c4_invalidation_bug :
    (((watcherHandleEvent ["did:plc:pub"] false
          (StateStore.empty.setServiceCache ⟨"did:plc:pub", ["spam"], 1000⟩)
          ⟨"did:plc:pub", "commit", "update"⟩).getServiceCache "did:plc:pub")
        = some ⟨"did:plc:pub", [], 0⟩) ∧
    ((validateLabelValue
        { trivialEnv with fetchServiceValues := some ["spam", "scam"], now := 2000 }
        (watcherHandleEvent ["did:plc:pub"] false
          (StateStore.empty.setServiceCache ⟨"did:plc:pub", ["spam"], 1000⟩)
          ⟨"did:plc:pub", "commit", "update"⟩)
        "did:plc:pub" "scam").1
      = ⟨false, some (.valueNotDeclared "scam")⟩) ∧
    ((validateLabelValue
        { trivialEnv with fetchServiceValues := some ["spam", "scam"], now := 2000 }
        (watcherHandleEvent ["did:plc:pub"] false
          (StateStore.empty.setServiceCache ⟨"did:plc:pub", ["spam"], 1000⟩)
          ⟨"did:plc:pub", "commit", "update"⟩)
        "did:plc:pub" "scam").2
      = watcherHandleEvent ["did:plc:pub"] false
          (StateStore.empty.setServiceCache ⟨"did:plc:pub", ["spam"], 1000⟩)
          ⟨"did:plc:pub", "commit", "update"⟩) := by
  refine ⟨rfl, rfl, rfl⟩

/-- Claim C8: during a continuous outage from a fresh connection the
scheduled reconnect timers are exactly ten, the n-th (1-based) after a delay
of reconnectDelay * n = 5000 n ms, and once the attempts counter has reached
the maximum, handleReconnect schedules nothing more, whatever the counter
exceeds it by. -/
theorem c8_reconnect_bound :
    (outageDelays 0
      = [5000, 10000, 15000, 20000, 25000, 30000, 35000, 40000, 45000, 50000]) ∧
    (∀ k : Nat, handleReconnect (maxReconnectAttempts + k) = none) := by
  refine ⟨rfl, fun k => ?_⟩
  simp [handleReconnect, maxReconnectAttempts, Nat.le_add_right]

/-- Claim C9 counterexample: for cts = "2024-05-06[" the code keeps the
bracket (the regex class [^[0-9a-zA-Z] contains a literal bracket), so the
dispatched ref is not the every-non-alphanumeric-stripped string the claim
describes. -/
theorem c9_ref_bracket_counterexample :
    (refFromCts "2024-05-06[" = "BSKY-TAKEDOWN-20240506[") ∧
    (specRefEveryNonAlnumStripped "2024-05-06[" = "BSKY-TAKEDOWN-20240506") ∧
    (refFromCts "2024-05-06[" ≠ specRefEveryNonAlnumStripped "2024-05-06[") ∧
    (handleTakedown { src := "did:plc:mod", uri := "did:plc:victim", val := "!takedown",
                      cts := "2024-05-06[", sig := some [1] }
      = [.takedownActor "did:plc:victim" "BSKY-TAKEDOWN-20240506["]) := by
  refine ⟨rfl, rfl, by decide, rfl⟩

/-- Checks that a dispatched call carries the ref derived from the given
cts (calls without a ref argument pass vacuously). -/
def eventRefOk (cts : String) : Event → Bool
  | .takedownActor _ ref => ref == refFromCts cts
  | .takedownRecord _ ref => ref == refFromCts cts
  | _ => true

theorem replaceAllStripped_eq_filter (l : List Char) :
    replaceAllStripped l = l.filter (fun c => c.isAlphanum || c == '[') := by
  induction l with
  | nil => rfl
  | cons c cs ih =>
    by_cases h : (c.isAlphanum || c == '[') = true
    · have hs : strippedByRegex c = false := by simp [strippedByRegex, h]
      simp [replaceAllStripped, hs, ih, List.filter_cons, h]
    · have hp : (c.isAlphanum || c == '[') = false := by
        revert h
        cases c.isAlphanum || c == '[' <;> simp
      have hs : strippedByRegex c = true := by simp [strippedByRegex, hp]
      simp [replaceAllStripped, hs, ih, List.filter_cons, hp]

/-- Claim C9 amended: for every cts, the derived ref is "BSKY-TAKEDOWN-"
followed by cts with every character removed that is neither an ASCII
alphanumeric nor the literal bracket (the bracket is kept, an artifact of
the regex class), and every dataplane call dispatched by handleTakedown that
carries a ref carries exactly this derived string. -/
theorem c9_ref_characterisation (cts : String) (label : Label) :
    (refFromCts cts
      = "BSKY-TAKEDOWN-" ++ ⟨cts.data.filter (fun c => c.isAlphanum || c == '[')⟩) ∧
    ((handleTakedown label).all (eventRefOk label.cts) = true) := by
  constructor
  · rw [refFromCts, replaceAllStripped_eq_filter]
  · unfold handleTakedown
    split_ifs <;> simp [eventRefOk]

/-- A labeler DID document whose label key parses to the bytes [1]. -/
def c7Doc1 : DidDoc :=
  ⟨[⟨"did:plc:lab#atproto_label", some "zKey1"⟩],
   [⟨"did:plc:lab#atproto_labeler", some "https://svc.example"⟩]⟩

/-- The same document after a key rotation, with key bytes [2]. -/
def c7Doc2 : DidDoc :=
  ⟨[⟨"did:plc:lab#atproto_label", some "zKey2"⟩],
   [⟨"did:plc:lab#atproto_labeler", some "https://svc.example"⟩]⟩

/-- An environment in which the directory already serves the rotated
document (resolution with noCache = true returns c7Doc2), the stale
document is what a plain resolution returns, and the signature verifies
only under the rotated key. -/
def c7Env : ValidatorEnv where
  resolve := fun noCache => if noCache then some c7Doc2 else some c7Doc1
  parseKey := fun s => if s == "zKey1" then [1] else [2]
  verify := fun k _ => k == [2]
  fetchServiceValues := none
  now := 0
  parseDate := fun _ => 0

/-- A label from the publisher of c7Doc1 with a signature present. -/
def c7Label : Label :=
  { src := "did:plc:lab", uri := "at://x", val := "spam", cts := "2024", sig := some [9] }

/-- Claim C7 counterexample: the first resolution (fresh, noCache = false)
populates the 60-second in-memory fetch cache; verification under the stale
key fails; the refresh call reads the SAME document back from that memory
cache instead of resolving with noCache, finds an identical key and rejects
the label — although resolving with noCache = true would return a different
key under which the signature verifies.  The refresh therefore does not
bypass every cache. -/
theorem c7_refresh_cached_counterexample :
    ((verifySignature c7Env StateStore.empty ⟨none⟩ c7Label).1
        = ⟨false, some .invalidSignature⟩) ∧
    (c7Env.resolve true = some c7Doc2) ∧
    (c7Env.parseKey "zKey2" = [2] ∧ c7Env.parseKey "zKey1" = [1]) ∧
    (c7Env.verify [2] c7Label = true) := by
  refine ⟨rfl, rfl, ⟨rfl, rfl⟩, rfl⟩

/-! ## Cursor discipline of the frame handler (C5, C6) -/

theorem fetchLabelerDidData_cursors (env : ValidatorEnv) (st : StateStore)
    (mem : MemCache) (did : String) (fr : Bool) :
    (fetchLabelerDidData env st mem did fr).2.1.cursors = st.cursors := by
  unfold fetchLabelerDidData
  (repeat' split) <;> rfl

theorem getLabelerPubKey_cursors (env : ValidatorEnv) (st : StateStore)
    (mem : MemCache) (did : String) (fr : Bool) :
    (getLabelerPubKey env st mem did fr).2.1.cursors = st.cursors := by
  unfold getLabelerPubKey
  have h := fetchLabelerDidData_cursors env st mem did fr
  rcases hfd : fetchLabelerDidData env st mem did fr with ⟨o, st2, mem2⟩
  rw [hfd] at h
  cases o with
  | none => simpa using h
  | some record =>
    by_cases hr : record.publicKey = "" <;> simp [hr] <;> simpa using h

theorem verifySignature_cursors (env : ValidatorEnv) (st : StateStore)
    (mem : MemCache) (label : Label) :
    (verifySignature env st mem label).2.1.cursors = st.cursors := by
  unfold verifySignature
  cases hs : label.sig with
  | none => rfl
  | some s =>
    have h1 := getLabelerPubKey_cursors env st mem label.src false
    rcases h1g : getLabelerPubKey env st mem label.src false with ⟨o1, st1, mem1⟩
    rw [h1g] at h1
    simp only at h1
    cases o1 with
    | none => simpa using h1
    | some pk =>
      by_cases hv : env.verify pk label = true
      · simp [hv]
        exact h1
      · have h2 := getLabelerPubKey_cursors env st1 mem1 label.src true
        rcases h2g : getLabelerPubKey env st1 mem1 label.src true with ⟨o2, st2, mem2⟩
        rw [h2g] at h2
        simp only at h2
        have h12 : st2.cursors = st.cursors := h2.trans h1
        cases o2 with
        | none => simp [hv, h2g]; exact h12
        | some rk =>
          by_cases hb : everyByteEq rk pk = true
          · simp [hv, h2g, hb]
            exact h12
          · by_cases hv2 : env.verify rk label = true <;>
              simp [hv, h2g, hb, hv2] <;> exact h12

theorem fetchServiceRecord_cursors (env : ValidatorEnv) (st : StateStore) (did : String) :
    (fetchServiceRecord env st did).2.cursors = st.cursors := by
  unfold fetchServiceRecord
  (repeat' split) <;> rfl

theorem validateLabelValue_cursors (env : ValidatorEnv) (st : StateStore)
    (did val : String) :
    (validateLabelValue env st did val).2.cursors = st.cursors := by
  unfold validateLabelValue
  cases hg : st.getServiceCache did with
  | some cached => by_cases hc : val ∈ cached.labelValues <;> simp [hc]
  | none =>
    have h := fetchServiceRecord_cursors env st did
    rcases hf : fetchServiceRecord env st did with ⟨o, st2⟩
    rw [hf] at h
    simp only at h
    cases o with
    | none => simpa using h
    | some srec =>
      by_cases hc : val ∈ srec.labelValues <;> simp [hc] <;> exact h

theorem validateLabel_cursors (env : ValidatorEnv) (st : StateStore)
    (mem : MemCache) (label : Label) (did : String) :
    (validateLabel env st mem label did).2.1.cursors = st.cursors := by
  unfold validateLabel
  cases hm : missingRequired label with
  | some k => rfl
  | none =>
    by_cases hsrc : label.src ≠ did
    · simp [hsrc]
    · rw [if_neg hsrc]
      have h1 := verifySignature_cursors env st mem label
      have h2 := validateLabelValue_cursors env
        (verifySignature env st mem label).2.1 label.src label.val
      have h12 := h2.trans h1
      by_cases hs2 : (verifySignature env st mem label).1.valid
      · by_cases hv2 : (validateLabelValue env
            (verifySignature env st mem label).2.1 label.src label.val).1.valid
        · cases hexp : label.exp with
          | none => simpa [hs2, hv2, hexp] using h12
          | some e =>
            simp only [hexp, hs2, hv2, Bool.not_true, Bool.false_eq_true, if_false]
            split_ifs <;> simpa using h12
        · simpa [hs2, hv2] using h12
      · simpa [hs2] using h1

theorem processLabel_cursors (env : ValidatorEnv) (st : StateStore)
    (mem : MemCache) (label : Label) (did : String) :
    (processLabel env st mem label did).1.cursors = st.cursors := by
  unfold processLabel
  have h := validateLabel_cursors env st mem label did
  rcases hv : validateLabel env st mem label did with ⟨res, st1, mem1⟩
  rw [hv] at h
  simp only at h
  by_cases hr : res.valid = true <;> simp [hr] <;> exact h

theorem processLabels_cursors (cfg : SubscriberConfig) (env : ValidatorEnv) :
    ∀ (labels : List Label) (st : StateStore) (mem : MemCache) (did : String),
    (processLabels cfg env st mem labels did).1.cursors = st.cursors := by
  intro labels
  induction labels with
  | nil => intro st mem did; rfl
  | cons label rest ih =>
    intro st mem did
    unfold processLabels
    have h1 := processLabel_cursors env st mem label did
    rcases hp : processLabel env st mem label did with ⟨st1, mem1, evs1⟩
    rw [hp] at h1
    simp only at h1
    have h2 := ih st1 mem1 did
    rcases hr : processLabels cfg env st1 mem1 rest did with ⟨st2, mem2, evs3⟩
    rw [hr] at h2
    simp only at h2
    simp [hp, hr]
    exact h2.trans h1

/-- Claim C5 amended: processing a labels frame stores the cursor
unconditionally: afterwards the persisted cursor for the publisher equals
the frame seq, whatever was stored before — so the persisted sequence is
non-decreasing exactly when the received seq values are, and a frame with a
lower seq moves the cursor down. -/
theorem c5_cursor_equals_seq (cfg : SubscriberConfig) (env : ValidatorEnv)
    (st : StateStore) (mem : MemCache) (did : String) (message : LabelsMessage) :
    (processLabelsMessage cfg env st mem did message).1.getCursor did
      = some message.seq := by
  unfold processLabelsMessage
  have h := processLabels_cursors cfg env message.labels
    (st.setCursor did message.seq) mem did
  rcases hr : processLabels cfg env (st.setCursor did message.seq) mem
      message.labels did with ⟨st1, mem1, evs⟩
  rw [hr] at h
  simp only at h
  simp [StateStore.getCursor, h, StateStore.setCursor, lookupKey_upsert_self]

/-- Claim C5 counterexample: with cursor 10 stored for the publisher, a
frame with seq 5 is processed and the cursor is persisted as 5 — strictly
lower than the stored cursor, against the claim. -/
theorem c5_cursor_decreases_counterexample :
    ((processLabelsMessage (mkSubscriberConfig none none) trivialEnv
        (StateStore.empty.setCursor "did:plc:a" 10) ⟨none⟩ "did:plc:a"
        ⟨5, []⟩).1.getCursor "did:plc:a" = some 5) ∧
    ((StateStore.empty.setCursor "did:plc:a" 10).getCursor "did:plc:a" = some 10) ∧
    (5 : Int) < 10 := by
  refine ⟨rfl, rfl, by decide⟩

theorem insertedRowsOf_append (a b : List Event) :
    insertedRowsOf (a ++ b) = insertedRowsOf a ++ insertedRowsOf b := by
  induction a with
  | nil => rfl
  | cons e rest ih => cases e <;> simp [insertedRowsOf, ih]

theorem insertedRowsOf_handleTakedown (label : Label) :
    insertedRowsOf (handleTakedown label) = [] := by
  unfold handleTakedown
  split_ifs <;> rfl

theorem processLabels_insertedRows (cfg : SubscriberConfig) (env : ValidatorEnv) :
    ∀ (labels : List Label) (st : StateStore) (mem : MemCache) (did : String),
    insertedRowsOf (processLabels cfg env st mem labels did).2.2
      = acceptedRows env st mem labels did := by
  intro labels
  induction labels with
  | nil => intro st mem did; rfl
  | cons label rest ih =>
    intro st mem did
    unfold processLabels processLabel acceptedRows
    rcases hv : validateLabel env st mem label did with ⟨res, st1, mem1⟩
    simp only [hv]
    by_cases hres : res.valid = true <;>
      rcases hr : processLabels cfg env st1 mem1 rest did with ⟨st2, mem2, evs3⟩ <;>
        have hih := ih st1 mem1 did <;>
          rw [hr] at hih <;>
            simp only at hih <;>
              by_cases hdp : (cfg.hasDataplane && (label.val == "!takedown")) = true <;>
                simp [hres, hr, hdp, insertedRowsOf_append,
                  insertedRowsOf_handleTakedown, insertedRowsOf, hih]

/-- Claim C6: for every received labels frame, the first recorded effect is
the cursor write of the frame seq (before any label is validated or
inserted: the per-label pass starts from the post-write store), and the rows
handed to the sink are exactly the validated labels of the frame in frame
order. -/
theorem c6_cursor_first_then_frame_order (cfg : SubscriberConfig)
    (env : ValidatorEnv) (st : StateStore) (mem : MemCache) (did : String)
    (message : LabelsMessage) :
    ((processLabelsMessage cfg env st mem did message).2.2.head?
        = some (.cursorSet did message.seq)) ∧
    (insertedRowsOf (processLabelsMessage cfg env st mem did message).2.2
        = acceptedRows env (st.setCursor did message.seq) mem message.labels did) := by
  unfold processLabelsMessage
  rcases hr : processLabels cfg env (st.setCursor did message.seq) mem
      message.labels did with ⟨st1, mem1, evs⟩
  have h := processLabels_insertedRows cfg env message.labels
    (st.setCursor did message.seq) mem did
  rw [hr] at h
  simp only at h
  exact ⟨rfl, by simpa [insertedRowsOf] using h⟩

/-! ## The refresh path of signature verification (C7) -/

theorem fetchLabelerDidData_force_ignores_didCache (env : ValidatorEnv)
    (st stB : StateStore) (mem : MemCache) (d : String) :
    (fetchLabelerDidData env st mem d true).1 = (fetchLabelerDidData env stB mem d true).1 ∧
    (fetchLabelerDidData env st mem d true).2.2
      = (fetchLabelerDidData env stB mem d true).2.2 := by
  unfold fetchLabelerDidData
  simp only [reduceIte]
  cases hf : (fetchIdCached env mem true).1 with
  | none => exact ⟨rfl, rfl⟩
  | some doc2 =>
    dsimp only
    cases hk : selectLabelerRecord env.now d doc2 with
    | none => exact ⟨rfl, rfl⟩
    | some r => exact ⟨rfl, rfl⟩

/-- Claim C7 amended: when verification against the first key fails, the
validator requests the key again with forceRefresh.  That second request
bypasses the persistent DID cache (first conjunct: its key result and its
memory-cache output do not depend on the DID cache contents) but it goes
through the 60-second in-memory fetch cache rather than through a noCache
resolution (second conjunct: while the cached document is fresh, the
refreshed key is read from it and the resolver is not consulted, whatever it
would return).  Verification is then retried exactly once and only when the
so-obtained key fails the byte-for-byte JS every comparison against the
first key; a failing retry or an identical key leaves the label invalid
(third conjunct). -/
theorem c7_refresh_through_memcache
    (env : ValidatorEnv) (st stB : StateStore) (mem : MemCache) (d : String)
    (doc : DidDoc) (k : Nat) (r2 : Bool → Option DidDoc) (label : Label)
    (s pk : List Nat) (st1 : StateStore) (mem1 : MemCache) :
    ((getLabelerPubKey env st mem d true).1 = (getLabelerPubKey env stB mem d true).1) ∧
    ((getLabelerPubKey env st ⟨some (doc, env.now + 1 + (k : Int))⟩ d true).1
        = (getLabelerPubKey { env with resolve := r2 } st
            ⟨some (doc, env.now + 1 + (k : Int))⟩ d true).1) ∧
    (label.sig = some s →
      getLabelerPubKey env st mem label.src false = (some pk, st1, mem1) →
      env.verify pk label = false →
      (verifySignature env st mem label).1 =
        match (getLabelerPubKey env st1 mem1 label.src true).1 with
        | some rk =>
          if !(everyByteEq rk pk) then
            (if env.verify rk label then { valid := true }
             else { valid := false, reason := some .invalidSignatureAfterRefresh })
          else { valid := false, reason := some .invalidSignature }
        | none => { valid := false, reason := some .invalidSignature }) := by
  refine ⟨?_, ?_, ?_⟩
  · unfold getLabelerPubKey
    obtain ⟨he1, he2⟩ := fetchLabelerDidData_force_ignores_didCache env st stB mem d
    rcases hA : fetchLabelerDidData env st mem d true with ⟨oA, stA, memA⟩
    rcases hB : fetchLabelerDidData env stB mem d true with ⟨oB, stB2, memB⟩
    rw [hA, hB] at he1
    simp only at he1
    subst he1
    cases oA with
    | none => rfl
    | some record => by_cases hr : record.publicKey = "" <;> simp [hr]
  · have hgt : env.now + 1 + (k : Int) > env.now := by omega
    unfold getLabelerPubKey fetchLabelerDidData fetchIdCached memCacheGet
    simp only [reduceIte, if_pos hgt]
  · intro hsig hpk hv
    unfold verifySignature
    rw [hsig, hpk]
    simp only [hv, Bool.false_eq_true, if_false]
    rcases hg : getLabelerPubKey env st1 mem1 label.src true with ⟨o2, st2, mem2⟩
    cases o2 with
    | none => rfl
    | some rk =>
      by_cases hb : everyByteEq rk pk <;> by_cases hv2 : env.verify rk label <;>
        simp [hb, hv2]

/-- An environment in which the stale key is only in the persistent DID
cache (a plain resolution fails) and the directory serves the rotated
document. -/
def c7wEnv : ValidatorEnv where
  resolve := fun noCache => if noCache then some c7Doc2 else none
  parseKey := fun s => if s == "zKey1" then [1] else [2]
  verify := fun k _ => k == [2]
  fetchServiceValues := none
  now := 0
  parseDate := fun _ => 0

/-- A store whose DID cache holds the stale key for the publisher of
c7Label. -/
def c7wStore : StateStore :=
  StateStore.empty.setDidCache ⟨"did:plc:lab", "https://svc.example", "zKey1", 0⟩

/-- Witness for C7 amended: the stale key comes from the persistent DID
cache, so the in-memory cache is empty; the refresh resolves the rotated
document, the key differs, the retry succeeds and the label is valid. -/
theorem c7_refresh_through_memcache_witness :
    (verifySignature c7wEnv c7wStore ⟨none⟩ c7Label).1 = { valid := true } := by
  have h := (c7_refresh_through_memcache c7wEnv c7wStore StateStore.empty ⟨none⟩
      "did:plc:lab" c7Doc1 0 (fun _ => none) c7Label [9] [1] c7wStore ⟨none⟩).2.2
      rfl rfl rfl
  rw [h]
  rfl

end LabelMuncher
